import Mathlib

/-!
Verification of the MOXI clips filter bot core against its specification.

The definitions below are shallow embeddings of the repository's JavaScript
source:
  * `src/utils/helpers.js`   — `encodeMovieLink` / `decodeMovieLink` (base64url)
  * `src/handlers/searchHandler.js` — the fuzzy title-resolution cascade that
    `index.js` wires into the bot (`matchesSpaceless`, `matchesTokens`,
    `keyboardProximity`, `soundex`, `levenshteinDistance`, `findSimilarByTypo`,
    and the `message:text` resolution pipeline)
  * `src/handlers/deliveryHandler.js` — the per-user delivery lock, the room
    lease (`Room.findOneAndUpdate` pair), and the `deliverMovie` orchestration
    with its catch/finally error handling.

JavaScript strings are modelled as Lean `String` / `List Char`; MongoDB
documents as Lean structures; `Date` timestamps as `Int` milliseconds; each
atomic `findOneAndUpdate` as one step over the modelled store.  External
transport calls that can throw are driven by an explicit oracle saying which
call fails, mirroring where `try`/`catch` boundaries sit in the source.
-/

/-! ### Base64url model of `encodeMovieLink` / `decodeMovieLink` (helpers.js 39-52)

`Buffer.from(movieName).toString('base64url')` first takes the UTF-8 bytes of
the title and then base64url-encodes them without padding;
`Buffer.from(encodedName, 'base64url').toString('utf-8')` inverts both steps.
A title is represented here by its UTF-8 byte sequence (a `List Nat`, each
entry < 256). -/

/-- The 64-character base64url alphabet used by Node's `base64url` encoding. -/
def b64Alphabet : List Char :=
  "ABCDEFGHIJKLMNOPQRSTUVWXYZabcdefghijklmnopqrstuvwxyz0123456789-_".data

/-- Value 0..63 to its base64url character. -/
def sextetToChar (n : Nat) : Char := b64Alphabet.getD n 'A'

/-- Base64url character back to its 6-bit value. -/
def charToSextet (c : Char) : Nat := b64Alphabet.indexOf c

/-- Bytes to 6-bit groups, processing 3 bytes into 4 sextets, with the
unpadded tail handling of Node's `base64url` (1 trailing byte yields 2
sextets, 2 trailing bytes yield 3). -/
def bytesToSextets : List Nat → List Nat
  | [] => []
  | [b0] => [b0 / 4, b0 % 4 * 16]
  | [b0, b1] => [b0 / 4, b0 % 4 * 16 + b1 / 16, b1 % 16 * 4]
  | b0 :: b1 :: b2 :: rest =>
      b0 / 4 :: (b0 % 4 * 16 + b1 / 16) :: (b1 % 16 * 4 + b2 / 64) :: b2 % 64 ::
        bytesToSextets rest

/-- 6-bit groups back to bytes (inverse direction of `bytesToSextets`),
as performed by `Buffer.from(_, 'base64url')`. -/
def sextetsToBytes : List Nat → List Nat
  | [] => []
  | [_] => []
  | [s0, s1] => [s0 * 4 + s1 / 16]
  | [s0, s1, s2] => [s0 * 4 + s1 / 16, s1 % 16 * 16 + s2 / 4]
  | s0 :: s1 :: s2 :: s3 :: rest =>
      (s0 * 4 + s1 / 16) :: (s1 % 16 * 16 + s2 / 4) :: (s2 % 4 * 64 + s3) ::
        sextetsToBytes rest

/-- `encodeMovieLink` (helpers.js 39-44) on the title's UTF-8 bytes. -/
def encodeMovieLink (bytes : List Nat) : List Char :=
  (bytesToSextets bytes).map sextetToChar

/-- `decodeMovieLink` (helpers.js 46-52) back to the title's UTF-8 bytes. -/
def decodeMovieLink (s : List Char) : List Nat :=
  sextetsToBytes (s.map charToSextet)

/-! ### String utilities shared by the matching engine (searchHandler.js) -/

/-- JavaScript `\s` whitespace class (the characters relevant to the
normalized queries/titles, which only ever contain plain spaces). -/
def isJsSpace (c : Char) : Bool :=
  c = ' ' || c = '\t' || c = '\n' || c = '\r' || c = Char.ofNat 11 || c = Char.ofNat 12

/-- `String.prototype.toLowerCase` on the ASCII range used by the catalog. -/
def toLowerL (l : List Char) : List Char := l.map Char.toLower

/-- Helper for JavaScript `String.prototype.includes`: does `hay` start
with `needle`? -/
def startsWithL : List Char → List Char → Bool
  | _, [] => true
  | [], _ :: _ => false
  | h :: hs, n :: ns => h = n && startsWithL hs ns

/-- JavaScript `hay.includes(needle)`: `needle` occurs as a contiguous
substring of `hay`. -/
def containsSub : List Char → List Char → Bool
  | [], needle => needle.isEmpty
  | h :: t, needle => startsWithL (h :: t) needle || containsSub t needle

/-- `replace(/\s+/g, '')`: drop every whitespace character. -/
def stripSpaces (l : List Char) : List Char := l.filter (fun c => !isJsSpace c)

/-- `matchesSpaceless` (searchHandler.js 24-30): compare query and title
with all whitespace removed; require the stripped query to have length ≥ 3
and either string to contain the other. -/
def matchesSpaceless (query title : String) : Bool :=
  let q := stripSpaces (toLowerL query.data)
  let t := stripSpaces (toLowerL title.data)
  if q.length < 3 then false
  else containsSub t q || containsSub q t

/-- `matchesTokens` (searchHandler.js 33-37): split the query on whitespace,
keep tokens of length > 1, and require every token to be a substring of the
lowercased title (and at least one token to exist). -/
def matchesTokens (query title : String) : Bool :=
  let qTokens := (List.splitOnP isJsSpace (toLowerL query.data)).filter
    (fun t => t.length > 1)
  let tLower := toLowerL title.data
  decide (qTokens.length > 0) && qTokens.all (fun tok => containsSub tLower tok)

/-! ### Keyboard proximity (searchHandler.js 40-66) -/

/-- Keyboard row of a character: 1/2/3 for the three letter rows, 0 for
anything else. -/
def kbRow (c : Char) : Nat :=
  if "qwertyuiop".data.contains c then 1
  else if "asdfghjkl".data.contains c then 2
  else if "zxcvbnm".data.contains c then 3
  else 0

/-- `Math.abs(a - b)` on naturals. -/
def natAbsDiff (a b : Nat) : Nat := max a b - min a b

/-- `keyboardProximity` (searchHandler.js 40-66): reject (score 100) when the
lengths differ by more than 2; otherwise accumulate 0.5 per same-row
substitution, 1 per adjacent-row, 2 per distant-row over the common prefix
length, plus the absolute length difference. -/
def keyboardProximity (a b : List Char) : ℚ :=
  if natAbsDiff a.length b.length > 2 then 100
  else
    let score := (a.zip b).foldl (fun acc p =>
      if p.1 = p.2 then acc
      else
        let ra := kbRow p.1
        let rb := kbRow p.2
        if ra = rb then acc + (1 / 2 : ℚ)
        else if natAbsDiff ra rb = 1 then acc + 1
        else acc + 2) 0
    score + (natAbsDiff a.length b.length : ℚ)

/-! ### Soundex (searchHandler.js 68-88) -/

/-- The consonant-group code table (`codes` object in `soundex`); `none` for
characters absent from the table (digits, punctuation). -/
def soundexCode (c : Char) : Option Nat :=
  if ['a', 'e', 'i', 'o', 'u', 'h', 'w', 'y'].contains c then some 0
  else if ['b', 'f', 'p', 'v'].contains c then some 1
  else if ['c', 'g', 'j', 'k', 'q', 's', 'x', 'z'].contains c then some 2
  else if ['d', 't'].contains c then some 3
  else if c = 'l' then some 4
  else if ['m', 'n'].contains c then some 5
  else if c = 'r' then some 6
  else none

/-- The `for` loop of `soundex`: walk the remaining characters, appending a
group code whenever it is defined, nonzero, and different from the previously
appended code, until `room` more digits have been emitted. -/
def soundexLoop : List Char → Nat → Nat → List Nat
  | [], _, _ => []
  | c :: rest, prev, room =>
    if room = 0 then []
    else
      match soundexCode c with
      | some code =>
          if code ≠ 0 ∧ code ≠ prev then code :: soundexLoop rest code (room - 1)
          else soundexLoop rest prev room
      | none => soundexLoop rest prev room

/-- `soundex` (searchHandler.js 68-88): strings shorter than 2 characters map
to "0000"; otherwise uppercase first letter followed by up to three group
digits, padded with '0' and truncated to length 4. -/
def soundex (s : List Char) : List Char :=
  if s.length < 2 then "0000".data
  else
    match toLowerL s with
    | [] => "0000".data
    | c0 :: rest =>
        let prev := (soundexCode c0).getD 0
        let result := Char.toUpper c0 :: (soundexLoop rest prev 3).map Nat.digitChar
        (result ++ "000".data).take 4

/-! ### Levenshtein distance (searchHandler.js 91-109)

The source fills the classic DP matrix with `matrix[0][j] = j`,
`matrix[i][0] = i` and
`matrix[i][j] = if b[i-1] = a[j-1] then matrix[i-1][j-1]
               else 1 + min(diagonal, left, up)`.
`levRowStep` computes one new matrix row from the previous row, and
`levenshteinDistance` folds it over the second string, returning the last
entry of the last row — exactly `matrix[b.length][a.length]`. -/

/-- One DP row update: `p` is the diagonal entry `matrix[i-1][j-1]`,
`ps.headD 0` the entry above (`matrix[i-1][j]`), `left` the entry just
computed (`matrix[i][j-1]`). -/
def levRowStep (bc : Char) : List Char → List Nat → Nat → List Nat
  | ac :: as, p :: ps, left =>
      let cur := if bc = ac then p else 1 + min p (min left (ps.headD 0))
      cur :: levRowStep bc as ps cur
  | _, _, _ => []

/-- `levenshteinDistance(a, b)` via row-by-row evaluation of the source's
matrix. -/
def levenshteinDistance (a b : List Char) : Nat :=
  let row0 := List.range (a.length + 1)
  let lastRow := b.foldl (fun prevRow bc =>
    let first := prevRow.headD 0 + 1
    first :: levRowStep bc a prevRow first) row0
  lastRow.getLastD 0

/-! ### Catalog entries and the fuzzy cascade (searchHandler.js 112-169) -/

/-- A catalog entry (`Movie` document, database.js 25-36), restricted to the
fields the matching engine and popularity bookkeeping read. -/
structure Movie where
  title : String
  categories : List String
  requests : Nat
  deriving DecidableEq, Repr

/-- The `reason` tag the source attaches to each fuzzy result. -/
inductive MatchReason where
  | spaceless
  | tokens
  | category
  | soundex
  | levenshtein
  | keyboard
  deriving DecidableEq, Repr

/-- The body of the `for (const movie of movies)` loop in `findSimilarByTypo`
(searchHandler.js 118-164): the first applicable strategy yields the entry's
score and reason, entries already containing the query as a substring are
skipped, and entries matching no strategy produce nothing. -/
def movieFuzzyScore (query : String) (threshold : Nat) (m : Movie) :
    Option (ℚ × MatchReason) :=
  let q := toLowerL query.data
  let title := toLowerL m.title.data
  if containsSub title q then none
  else if matchesSpaceless query m.title then some (-2, .spaceless)
  else if matchesTokens query m.title then some (-1, .tokens)
  else if m.categories.any (fun c => containsSub (toLowerL c.data) q) then
    some (0, .category)
  else
    let qS := soundex q
    let tS := soundex title
    if qS = tS ∨ qS.head? = tS.head? then some (1, .soundex)
    else
      let d := levenshteinDistance q title
      if d ≤ threshold then some (((d + 2 : Nat) : ℚ), .levenshtein)
      else
        let kb := keyboardProximity q title
        if kb ≤ 3 then some (kb + 4, .keyboard) else none

/-- Stable insertion of one scored entry into an ascending list (used to model
the stable ascending `results.sort((a, b) => a.score - b.score)`). -/
def insertByScore (x : Movie × ℚ × MatchReason) :
    List (Movie × ℚ × MatchReason) → List (Movie × ℚ × MatchReason)
  | [] => [x]
  | y :: ys => if x.2.1 < y.2.1 then x :: y :: ys else y :: insertByScore x ys

/-- Stable ascending sort by score, as JavaScript's stable `Array.sort` with
comparator `a.score - b.score`. -/
def sortByScore (l : List (Movie × ℚ × MatchReason)) :
    List (Movie × ℚ × MatchReason) :=
  l.foldl (fun acc x => insertByScore x acc) []

/-- `findSimilarByTypo` (searchHandler.js 112-169): score every entry, sort
ascending by score, keep the best 5.  The source's `threshold` parameter
defaults to 2 and every call site passes nothing, so callers below use 2. -/
def findSimilarByTypo (movies : List Movie) (query : String) (threshold : Nat) :
    List (Movie × ℚ × MatchReason) :=
  let results := movies.filterMap (fun m =>
    (movieFuzzyScore query threshold m).map (fun s => (m, s)))
  (sortByScore results).take 5

/-! ### The resolution pipeline (searchHandler.js `message:text`, 325-599) -/

/-- Outcome of resolving one query, as the spec's `Outcome`. -/
inductive Outcome where
  | singleMatch (m : Movie)
  | suggestions (ms : List Movie)
  | noMatch
  deriving DecidableEq, Repr

/-- The stage-5 regex fallback (searchHandler.js 460-465):
`title: {$regex: query, $options: 'i'}` or
`categories: {$regex: query, $options: 'i'}` with `.limit(5)` — a
case-insensitive substring hit on the title or any category. -/
def regexFallback (movies : List Movie) (query : String) : List Movie :=
  (movies.filter (fun m =>
    containsSub (toLowerL m.title.data) (toLowerL query.data) ||
    m.categories.any (fun c => containsSub (toLowerL c.data) (toLowerL query.data)))).take 5

/-- The `message:text` resolution pipeline of searchHandler.js (lines
325-599): exact `Movie.findOne({title: query})`, then first spaceless match,
then first token match — each yielding a single result —, then
`findSimilarByTypo` whose non-empty result is always presented as suggestions
(up to 3), then the regex fallback (unique hit auto-accepted, several hits
presented, none falling to a second — necessarily empty — typo pass). -/
def resolveQuery (movies : List Movie) (query : String) : Outcome :=
  match movies.find? (fun m => m.title == query) with
  | some m => .singleMatch m
  | none =>
    match movies.find? (fun m => matchesSpaceless query m.title) with
    | some m => .singleMatch m
    | none =>
      match movies.find? (fun m => matchesTokens query m.title) with
      | some m => .singleMatch m
      | none =>
        let sims := findSimilarByTypo movies query 2
        if sims.length > 0 then .suggestions ((sims.take 3).map (fun x => x.1))
        else
          match regexFallback movies query with
          | [m] => .singleMatch m
          | [] =>
            let sims2 := findSimilarByTypo movies query 2
            if sims2.length > 0 then .suggestions ((sims2.take 3).map (fun x => x.1))
            else .noMatch
          | ms => .suggestions ms

/-- `movie.requests += 1` (searchHandler.js 380) on the in-memory document,
before `movie.save()` writes it back. -/
def incrementRequests (m : Movie) : Movie :=
  { m with requests := m.requests + 1 }

/-! ### The popularity increment as a read-then-write machine
(searchHandler.js 326, 380-381)

The handler holds a Mongoose document: `Movie.findOne` reads the stored
`requests` value into the document, `movie.requests += 1` bumps the in-memory
copy, and `movie.save()` overwrites the stored value with the copy.  Between
the read and the write any other request may interleave (every `await` is a
suspension point), so the increment is modelled as a two-phase operation over
a shared counter, driven by an explicit schedule. -/

/-- Program counter of one resolution's increment: before the `findOne` read,
holding the document value it will `save`, or finished. -/
inductive RmwPc where
  | toRead
  | toWrite (v : Nat)
  | done
  deriving DecidableEq, Repr

/-- One step of a single increment operation against the stored counter:
the read phase captures `store` and computes `store + 1` into the document
(`movie.requests += 1`); the write phase (`movie.save()`) overwrites the
store with the document value. -/
def rmwStep (store : Nat) : RmwPc → Nat × RmwPc
  | .toRead => (store, .toWrite (store + 1))
  | .toWrite v => (v, .done)
  | .done => (store, .done)

/-- Step operation number `i` of a family of interleaved increments. -/
def stepOpAt (s : Nat × List RmwPc) (i : Nat) : Nat × List RmwPc :=
  match s.2.get? i with
  | none => s
  | some pc =>
      let r := rmwStep s.1 pc
      (r.1, s.2.set i r.2)

/-- Run a schedule (a list of operation indices) over the shared counter. -/
def runSched : List Nat → Nat × List RmwPc → Nat × List RmwPc
  | [], s => s
  | i :: rest, s => runSched rest (stepOpAt s i)

/-! ### Rooms and the lease operation (database.js 39-45,
deliveryHandler.js 267-292) -/

/-- A `Room` document (database.js 39-45).  `lastUsed` is a timestamp in
milliseconds. -/
structure Room where
  roomId : String
  isBusy : Bool
  lastUsed : Int
  currentUserId : Option String
  lastMessageIds : List Nat
  deriving DecidableEq, Repr

/-- The `{isBusy: true}` update applied by both lease queries. -/
def setBusy (r : Room) : Room := { r with isBusy := true }

/-- First lease query (deliveryHandler.js 267-271):
`Room.findOneAndUpdate({isBusy: false}, {isBusy: true})` — atomically find
the first non-busy room, mark it busy, and return the updated document
together with the updated pool. -/
def leaseFree : List Room → Option (Room × List Room)
  | [] => none
  | r :: rest =>
    if r.isBusy = false then some (setBusy r, setBusy r :: rest)
    else
      match leaseFree rest with
      | some (x, rs) => some (x, r :: rs)
      | none => none

/-- Minimum `lastUsed` over a pool. -/
def minLastUsed : List Room → Option Int
  | [] => none
  | r :: rest =>
    match minLastUsed rest with
    | none => some r.lastUsed
    | some m => some (min r.lastUsed m)

/-- Fallback lease query (deliveryHandler.js 274-279):
`Room.findOneAndUpdate({}, {isBusy: true}, {sort: {lastUsed: 1}})` —
atomically mark busy and return the room with the smallest `lastUsed`
(first in pool order among ties). -/
def leaseOldest : List Room → Option (Room × List Room)
  | [] => none
  | r :: rest =>
    match minLastUsed rest with
    | none => some (setBusy r, [setBusy r])
    | some m =>
      if r.lastUsed ≤ m then some (setBusy r, setBusy r :: rest)
      else
        match leaseOldest rest with
        | some (x, rs) => some (x, r :: rs)
        | none => none

/-- The full room lease (deliveryHandler.js 267-279): try a free room first,
otherwise steal the least-recently-used room; `none` only when the second
query also matches no document. -/
def leaseRoom (rooms : List Room) : Option (Room × List Room) :=
  match leaseFree rooms with
  | some res => some res
  | none => leaseOldest rooms

/-! ### The per-user delivery lock (deliveryHandler.js 83-106) -/

/-- The `User` document fields the lock logic reads and writes
(database.js 48-55 plus the `isDelivering` / `lastDeliveryAt` fields the
handler maintains).  Timestamps are milliseconds. -/
structure UserDoc where
  isDelivering : Bool
  lastDeliveryAt : Int
  lastActive : Int
  deriving DecidableEq, Repr

/-- The atomic lock check-and-set (deliveryHandler.js 83-99):
`User.findOneAndUpdate` matching `isDelivering ≠ true` or
`lastDeliveryAt < Date.now() - 5*60*1000`, setting `isDelivering: true` and
fresh timestamps; returns the updated document on a match and `none` (no
mutation) otherwise. -/
def tryAcquireLock (u : UserDoc) (now : Int) : Option UserDoc :=
  if u.isDelivering = false ∨ u.lastDeliveryAt < now - 5 * 60 * 1000 then
    some { u with isDelivering := true, lastDeliveryAt := now, lastActive := now }
  else none

/-- The backing store after a lock-acquisition attempt: the updated document
if the atomic query matched, the unchanged document otherwise. -/
def lockStoreAfter (u : UserDoc) (now : Int) : UserDoc :=
  (tryAcquireLock u now).getD u

/-! ### The delivery orchestration (deliveryHandler.js 226-491)

`deliverMovie` runs inside one `try`/`catch`/`finally`.  Eviction and purge
errors (lines 295-315) and media-batch errors (lines 351-368, with the
per-item fallback each wrapped in its own `try`) are swallowed inside the
`try`; `sendToLogChannel` swallows its own errors (helpers.js 54-62); the
badge bookkeeping sits in its own `try`/`catch` (lines 441-476).  The calls
that can propagate to the outer `catch` are the `editMessageText`s, the
invite creation, and the room save.  An oracle records which of those calls
throws on this run. -/

/-- The fallible external calls of `deliverMovie` whose exceptions reach the
outer `catch`. -/
inductive ExtCall where
  | editJoinMsg
  | editNoRoomMsg
  | editPreTransferMsg
  | sendMediaBatch
  | createInvite
  | saveRoomDoc
  | editDeliveryCard
  deriving DecidableEq, Repr

/-- Which external calls throw on this run.  `sendMediaBatch` failures are
swallowed by the source (newMessageIds just stays empty) but are still
tracked, since they change the references recorded on release. -/
def Oracle := ExtCall → Bool

/-- The store state a delivery touches: the requesting user's document and
the room pool. -/
structure DeliveryState where
  user : UserDoc
  rooms : List Room
  deriving DecidableEq, Repr

/-- Observable outcome of one `/start` handling. -/
inductive DeliveryOutcome where
  | lockBusyReply
  | tokenGrantedReply
  | tokenWrongUserReply
  | linkExpiredReply
  | notAvailableReply
  | needTokenReply
  | shortlinkReply
  | blockedForceSub
  | noRoom
  | delivered
  | failed
  deriving DecidableEq, Repr

/-- The room-state save of the success path (deliveryHandler.js 406-410):
`room.currentUserId = userId; room.lastMessageIds = newIds;
room.lastUsed = now; room.isBusy = false; await room.save()`. -/
def releaseRoomSave (rooms : List Room) (rid uid : String) (ids : List Nat)
    (now : Int) : List Room :=
  rooms.map (fun r =>
    if r.roomId = rid then
      { r with currentUserId := some uid, lastMessageIds := ids,
               lastUsed := now, isBusy := false }
    else r)

/-- The `try` block of `deliverMovie` (deliveryHandler.js 231-479) followed by
the `catch` (which only logs and edits the user-facing message, leaving the
store untouched). `clipIds` are the message ids a fully successful transfer
would collect. -/
def deliverMovieBody (oracle : Oracle) (forceSubOk : Bool) (uid : String)
    (clipIds : List Nat) (now : Int) (st : DeliveryState) :
    DeliveryState × DeliveryOutcome :=
  if forceSubOk = false then
    if oracle .editJoinMsg then (st, .failed) else (st, .blockedForceSub)
  else
    match leaseRoom st.rooms with
    | none =>
      if oracle .editNoRoomMsg then (st, .failed) else (st, .noRoom)
    | some (room, rooms1) =>
      let st1 : DeliveryState := { st with rooms := rooms1 }
      if oracle .editPreTransferMsg then (st1, .failed)
      else
        let newIds := if oracle .sendMediaBatch then [] else clipIds
        if oracle .createInvite then (st1, .failed)
        else if oracle .saveRoomDoc then (st1, .failed)
        else
          let st2 : DeliveryState :=
            { st1 with rooms := releaseRoomSave rooms1 room.roomId uid newIds now }
          if oracle .editDeliveryCard then (st2, .failed)
          else (st2, .delivered)

/-- `deliverMovie` (deliveryHandler.js 226-491): the body above wrapped in the
`finally` block (lines 488-490), which unconditionally writes
`isDelivering: false` on the user document. -/
def deliverMovie (oracle : Oracle) (forceSubOk : Bool) (uid : String)
    (clipIds : List Nat) (now : Int) (st : DeliveryState) :
    DeliveryState × DeliveryOutcome :=
  let res := deliverMovieBody oracle forceSubOk uid clipIds now st
  ({ res.1 with user := { res.1.user with isDelivering := false } }, res.2)

/-! ### The `/start` command around `deliverMovie` (deliveryHandler.js 38-220) -/

/-- Monetization mode (`getSetting('mode', 'off')`). -/
inductive MonetMode where
  | off
  | shortlink
  | token
  deriving DecidableEq, Repr

/-- The request-dependent inputs of the `/start` handler: how the payload
parses, whether the movie exists with content, the monetization branch data
and the force-subscribe verdict. -/
structure StartEnv where
  tokenClaim : Option Bool
  payloadDecodes : Bool
  movieOk : Bool
  mode : MonetMode
  isVerified : Bool
  hasValidToken : Bool
  forceSubOk : Bool
  deriving DecidableEq, Repr

/-- Clear the per-user lock (`releaseLock`, deliveryHandler.js 101). -/
def clearLock (st : DeliveryState) : DeliveryState :=
  { st with user := { st.user with isDelivering := false } }

/-- The `/start` handler with a movie payload (deliveryHandler.js 82-220):
acquire the per-user lock atomically (busy reply and no mutation on
failure), then walk the early-exit branches in source order — token claim,
link decoding, movie lookup, token gate, shortlink redirect — each of which
ends with `releaseLock()`, and otherwise hand over to `deliverMovie`, whose
`finally` clears the lock. `tokenClaim = some b` means the payload was a
`token_` claim belonging (`b = true`) or not to the caller. -/
def startCommand (env : StartEnv) (oracle : Oracle) (uid : String)
    (clipIds : List Nat) (now : Int) (st : DeliveryState) :
    DeliveryState × DeliveryOutcome :=
  match tryAcquireLock st.user now with
  | none => (st, .lockBusyReply)
  | some u1 =>
    let st1 : DeliveryState := { st with user := u1 }
    match env.tokenClaim with
    | some owner =>
      if owner then (clearLock st1, .tokenGrantedReply)
      else (clearLock st1, .tokenWrongUserReply)
    | none =>
      if env.payloadDecodes = false then (clearLock st1, .linkExpiredReply)
      else if env.movieOk = false then (clearLock st1, .notAvailableReply)
      else
        match env.mode, env.isVerified with
        | .token, _ =>
          if env.hasValidToken = false then (clearLock st1, .needTokenReply)
          else deliverMovie oracle env.forceSubOk uid clipIds now st1
        | .shortlink, false => (clearLock st1, .shortlinkReply)
        | _, _ => deliverMovie oracle env.forceSubOk uid clipIds now st1

/-! ### Concrete fixtures used by counterexamples and witnesses -/

/-- An oracle on which only the invite creation throws. -/
def oracleInviteFail : Oracle := fun c =>
  match c with
  | .createInvite => true
  | _ => false

/-- An oracle on which no external call throws. -/
def oracleOk : Oracle := fun _ => false

/-- A one-room pool whose only room is free. -/
def poolOneFree : List Room :=
  [{ roomId := "room1", isBusy := false, lastUsed := 0,
     currentUserId := none, lastMessageIds := [] }]

/-- A user holding no lock. -/
def userIdle : UserDoc :=
  { isDelivering := false, lastDeliveryAt := 0, lastActive := 0 }

/-- Delivery store fixture: idle user, one free room. -/
def stOneFree : DeliveryState := { user := userIdle, rooms := poolOneFree }

/-- A catalog entry titled "luca" with no categories. -/
def movieLuca : Movie := { title := "luca", categories := [], requests := 0 }

/-- A catalog entry titled "xycd" with no categories. -/
def movieXycd : Movie := { title := "xycd", categories := [], requests := 0 }

/-- A catalog entry titled "jawan" with no categories. -/
def movieJawan : Movie := { title := "jawan", categories := [], requests := 4 }

/-- A user whose lock flag is set but whose timestamp is stale. -/
def userStale : UserDoc :=
  { isDelivering := true, lastDeliveryAt := 0, lastActive := 0 }

/-- Start environment: valid movie payload, monetization off, member of the
force-subscribe channel. -/
def envOff : StartEnv :=
  { tokenClaim := none, payloadDecodes := true, movieOk := true,
    mode := .off, isVerified := false, hasValidToken := false,
    forceSubOk := true }

/-- A busy room with `lastUsed = 5`. -/
def roomBusyA : Room :=
  { roomId := "roomA", isBusy := true, lastUsed := 5,
    currentUserId := none, lastMessageIds := [] }

/-- A free room with `lastUsed = 9`. -/
def roomFreeB : Room :=
  { roomId := "roomB", isBusy := false, lastUsed := 9,
    currentUserId := none, lastMessageIds := [] }

/-- A two-room pool: one busy, one free. -/
def poolMixed : List Room := [roomBusyA, roomFreeB]

/-! ## Theorems -/

/-! ### Base64url round trip (claim C10) -/

set_option maxRecDepth 4000 in
/-- Decoding a base64url character recovers the 6-bit value it encodes. -/
theorem charToSextet_sextetToChar : ∀ n, n < 64 → charToSextet (sextetToChar n) = n := by
  decide

/-- Every 6-bit group produced from in-range bytes is below 64. -/
theorem bytesToSextets_lt : ∀ bytes : List Nat, (∀ b ∈ bytes, b < 256) →
    ∀ s ∈ bytesToSextets bytes, s < 64
  | [], _ => by simp [bytesToSextets]
  | [b0], h => by
    have h0 := h b0 (by simp)
    simp only [bytesToSextets, List.mem_cons, List.not_mem_nil, or_false]
    rintro s (rfl | rfl) <;> omega
  | [b0, b1], h => by
    have h0 := h b0 (by simp)
    have h1 := h b1 (by simp)
    simp only [bytesToSextets, List.mem_cons, List.not_mem_nil, or_false]
    rintro s (rfl | rfl | rfl) <;> omega
  | b0 :: b1 :: b2 :: rest, h => by
    have h0 := h b0 (by simp)
    have h1 := h b1 (by simp)
    have h2 := h b2 (by simp)
    have ih := bytesToSextets_lt rest (fun b hb => h b (by simp [hb]))
    simp only [bytesToSextets, List.mem_cons]
    rintro s (rfl | rfl | rfl | rfl | hs)
    · omega
    · omega
    · omega
    · omega
    · exact ih s hs

/-- Regrouping the 6-bit groups back into bytes recovers the original
byte list. -/
theorem sextetsToBytes_bytesToSextets : ∀ bytes : List Nat,
    (∀ b ∈ bytes, b < 256) → sextetsToBytes (bytesToSextets bytes) = bytes
  | [], _ => rfl
  | [b0], h => by
    have h0 := h b0 (by simp)
    simp only [bytesToSextets, sextetsToBytes]
    congr 1
    omega
  | [b0, b1], h => by
    have h0 := h b0 (by simp)
    have h1 := h b1 (by simp)
    simp only [bytesToSextets, sextetsToBytes]
    congr 1
    · omega
    · congr 1
      omega
  | b0 :: b1 :: b2 :: rest, h => by
    have h0 := h b0 (by simp)
    have h1 := h b1 (by simp)
    have h2 := h b2 (by simp)
    have ih := sextetsToBytes_bytesToSextets rest (fun b hb => h b (by simp [hb]))
    simp only [bytesToSextets, sextetsToBytes]
    congr 1
    · omega
    · congr 1
      · omega
      · congr 1
        omega

/-- Mapping back through the alphabet is the identity on 6-bit values. -/
theorem map_charToSextet_map_sextetToChar : ∀ l : List Nat, (∀ s ∈ l, s < 64) →
    (l.map sextetToChar).map charToSextet = l
  | [], _ => rfl
  | s :: rest, h => by
    simp only [List.map_cons, List.cons.injEq]
    exact ⟨charToSextet_sextetToChar s (h s (by simp)),
      map_charToSextet_map_sextetToChar rest (fun x hx => h x (by simp [hx]))⟩

/-- C10: for every title whose UTF-8 byte sequence is `bytes` (any
well-formed-Unicode title has one), decoding the encoded delivery-link
payload returns the original title's bytes exactly:
`decodeMovieLink (encodeMovieLink t) = t`. -/
theorem decode_encode_movie_link_roundtrip (bytes : List Nat)
    (h : ∀ b ∈ bytes, b < 256) :
    decodeMovieLink (encodeMovieLink bytes) = bytes := by
  unfold decodeMovieLink encodeMovieLink
  rw [map_charToSextet_map_sextetToChar _ (bytesToSextets_lt bytes h)]
  exact sextetsToBytes_bytesToSextets bytes h

/-- Witness for C10 at the UTF-8 bytes of the title "jawan". -/
theorem decode_encode_movie_link_roundtrip_witness :
    decodeMovieLink (encodeMovieLink [106, 97, 119, 97, 110]) = [106, 97, 119, 97, 110] :=
  decode_encode_movie_link_roundtrip [106, 97, 119, 97, 110] (by decide)

/-! ### Room lease (claim C3) -/

/-- The first lease query finds nothing exactly when every room is busy. -/
theorem leaseFree_none_iff : ∀ rooms : List Room,
    (leaseFree rooms = none ↔ ∀ r ∈ rooms, r.isBusy = true)
  | [] => by simp [leaseFree]
  | r :: rest => by
    cases hb : r.isBusy with
    | false => simp [leaseFree, hb]
    | true =>
      cases hrest : leaseFree rest with
      | none =>
        have ih := (leaseFree_none_iff rest).mp hrest
        simp only [leaseFree, hb, Bool.true_eq_false, if_false, hrest]
        simp only [List.mem_cons, forall_eq_or_imp, hb, true_and, true_iff]
        exact ih
      | some p =>
        have ih : ¬ ∀ x ∈ rest, x.isBusy = true := by
          intro hall
          rw [(leaseFree_none_iff rest).mpr hall] at hrest
          cases hrest
        simp only [leaseFree, hb, Bool.true_eq_false, if_false, hrest]
        constructor
        · intro h; cases h
        · intro h
          exact absurd (fun x hx => h x (List.mem_cons_of_mem _ hx)) ih

/-- A successful first lease query returns some free room marked busy, and
that room belongs to the updated pool. -/
theorem leaseFree_some : ∀ (rooms : List Room) (r : Room) (rs : List Room),
    leaseFree rooms = some (r, rs) →
    ∃ r0 ∈ rooms, r0.isBusy = false ∧ r = setBusy r0 ∧ r ∈ rs
  | [], r, rs, h => by cases h
  | r1 :: rest, r, rs, h => by
    cases hb : r1.isBusy with
    | false =>
      simp only [leaseFree, hb, if_true] at h
      obtain ⟨rfl, rfl⟩ := Prod.mk.injEq .. ▸ Option.some.inj h
      exact ⟨r1, by simp, hb, rfl, by simp⟩
    | true =>
      simp only [leaseFree, hb, Bool.true_eq_false, if_false] at h
      cases hrest : leaseFree rest with
      | none => rw [hrest] at h; cases h
      | some p =>
        rw [hrest] at h
        obtain ⟨x, xs⟩ := p
        obtain ⟨rfl, rfl⟩ := Prod.mk.injEq .. ▸ Option.some.inj h
        obtain ⟨r0, hr0mem, hr0busy, hr0eq, hr0in⟩ := leaseFree_some rest x xs hrest
        exact ⟨r0, List.mem_cons_of_mem _ hr0mem, hr0busy, hr0eq, List.mem_cons_of_mem _ hr0in⟩

/-- `minLastUsed` is `none` exactly on the empty pool. -/
theorem minLastUsed_none_iff : ∀ rooms : List Room, (minLastUsed rooms = none ↔ rooms = [])
  | [] => by simp [minLastUsed]
  | r :: rest => by
    cases h : minLastUsed rest <;> simp [minLastUsed, h]

/-- The minimum `lastUsed` bounds every room's `lastUsed` from below. -/
theorem minLastUsed_le : ∀ (rooms : List Room) (m : Int), minLastUsed rooms = some m →
    ∀ r ∈ rooms, m ≤ r.lastUsed
  | [], m, h => by cases h
  | r :: rest, m, h => by
    cases hrest : minLastUsed rest with
    | none =>
      have : rest = [] := (minLastUsed_none_iff rest).mp hrest
      subst this
      simp only [minLastUsed] at h
      obtain rfl := Option.some.inj h
      simp
    | some m' =>
      simp only [minLastUsed, hrest] at h
      obtain rfl := Option.some.inj h
      intro x hx
      rcases List.mem_cons.mp hx with rfl | hx'
      · exact min_le_left _ _
      · exact le_trans (min_le_right _ _) (minLastUsed_le rest m' hrest x hx')

/-- The minimum `lastUsed` is attained by some room of the pool. -/
theorem minLastUsed_mem : ∀ (rooms : List Room) (m : Int), minLastUsed rooms = some m →
    ∃ r ∈ rooms, r.lastUsed = m
  | [], m, h => by cases h
  | r :: rest, m, h => by
    cases hrest : minLastUsed rest with
    | none =>
      simp only [minLastUsed, hrest] at h
      obtain rfl := Option.some.inj h
      exact ⟨r, by simp⟩
    | some m' =>
      simp only [minLastUsed, hrest] at h
      obtain rfl := Option.some.inj h
      rcases le_total r.lastUsed m' with hle | hle
      · exact ⟨r, by simp, (min_eq_left hle).symm⟩
      · obtain ⟨x, hxmem, hxeq⟩ := minLastUsed_mem rest m' hrest
        exact ⟨x, List.mem_cons_of_mem _ hxmem, by rw [hxeq]; exact (min_eq_right hle).symm⟩

/-- The LRU-steal query fails exactly on the empty pool. -/
theorem leaseOldest_none_iff : ∀ rooms : List Room, (leaseOldest rooms = none ↔ rooms = [])
  | [] => by simp [leaseOldest]
  | r :: rest => by
    cases hrest : minLastUsed rest with
    | none => simp [leaseOldest, hrest]
    | some m =>
      by_cases hle : r.lastUsed ≤ m
      · simp [leaseOldest, hrest, hle]
      · have hne : rest ≠ [] := by
          intro hnil; subst hnil; simp [minLastUsed] at hrest
        cases hro : leaseOldest rest with
        | none => exact absurd ((leaseOldest_none_iff rest).mp hro) hne
        | some p => simp [leaseOldest, hrest, hle, hro]

/-- A successful LRU-steal returns some room with minimal `lastUsed`,
marked busy and present in the updated pool. -/
theorem leaseOldest_some : ∀ (rooms : List Room) (r : Room) (rs : List Room),
    leaseOldest rooms = some (r, rs) →
    ∃ r0 ∈ rooms, r = setBusy r0 ∧ r ∈ rs ∧ ∀ r1 ∈ rooms, r0.lastUsed ≤ r1.lastUsed
  | [], r, rs, h => by cases h
  | r1 :: rest, r, rs, h => by
    cases hrest : minLastUsed rest with
    | none =>
      have : rest = [] := (minLastUsed_none_iff rest).mp hrest
      subst this
      simp only [leaseOldest, minLastUsed] at h
      obtain ⟨rfl, rfl⟩ := Prod.mk.injEq .. ▸ Option.some.inj h
      exact ⟨r1, by simp, rfl, by simp, by simp⟩
    | some m =>
      simp only [leaseOldest, hrest] at h
      by_cases hle : r1.lastUsed ≤ m
      · rw [if_pos hle] at h
        obtain ⟨rfl, rfl⟩ := Prod.mk.injEq .. ▸ Option.some.inj h
        refine ⟨r1, by simp, rfl, by simp, ?_⟩
        intro x hx
        rcases List.mem_cons.mp hx with rfl | hx'
        · exact le_refl _
        · exact le_trans hle (minLastUsed_le rest m hrest x hx')
      · rw [if_neg hle] at h
        cases hro : leaseOldest rest with
        | none => rw [hro] at h; cases h
        | some p =>
          rw [hro] at h
          obtain ⟨x, xs⟩ := p
          obtain ⟨rfl, rfl⟩ := Prod.mk.injEq .. ▸ Option.some.inj h
          obtain ⟨r0, hr0mem, hr0eq, hr0in, hr0min⟩ := leaseOldest_some rest x xs hro
          refine ⟨r0, List.mem_cons_of_mem _ hr0mem, hr0eq, List.mem_cons_of_mem _ hr0in, ?_⟩
          intro y hy
          rcases List.mem_cons.mp hy with rfl | hy'
          · obtain ⟨z, hzmem, hzeq⟩ := minLastUsed_mem rest m hrest
            have h1 : r0.lastUsed ≤ m := hzeq ▸ hr0min z hzmem
            exact le_trans h1 (le_of_lt (lt_of_not_le hle))
          · exact hr0min y hy'

/-- `setBusy` sets the busy flag. -/
theorem setBusy_isBusy (r : Room) : (setBusy r).isBusy = true := rfl

/-- The combined lease returns no room exactly when the pool is empty. -/
theorem leaseRoom_none_iff (rooms : List Room) : leaseRoom rooms = none ↔ rooms = [] := by
  unfold leaseRoom
  cases hf : leaseFree rooms with
  | some p => simp; intro hnil; subst hnil; simp [leaseFree] at hf
  | none =>
    simp only
    exact leaseOldest_none_iff rooms

/-- The leased room is busy and belongs to the updated pool. -/
theorem leaseRoom_mem_busy (rooms : List Room) (r : Room) (rs : List Room)
    (h : leaseRoom rooms = some (r, rs)) : r ∈ rs ∧ r.isBusy = true := by
  unfold leaseRoom at h
  cases hf : leaseFree rooms with
  | some p =>
    rw [hf] at h
    obtain ⟨x, xs⟩ := p
    obtain ⟨rfl, rfl⟩ := Prod.mk.injEq .. ▸ Option.some.inj h
    obtain ⟨r0, _, _, hr0eq, hr0in⟩ := leaseFree_some rooms x xs hf
    exact ⟨hr0in, hr0eq ▸ setBusy_isBusy r0⟩
  | none =>
    rw [hf] at h
    obtain ⟨r0, _, hr0eq, hr0in, _⟩ := leaseOldest_some rooms r rs h
    exact ⟨hr0in, hr0eq ▸ setBusy_isBusy r0⟩

/-- C3: the room lease atomically finds a room with `busy = false` and sets
`busy = true`, returning it; if no free room exists it selects a room with the
oldest `lastUsed` among all rooms and force-marks it busy; it returns no room
exactly when the pool contains zero rooms.  (deliveryHandler.js 266-292) -/
theorem leaseRoom_spec (rooms : List Room) :
    (leaseRoom rooms = none ↔ rooms = []) ∧
    ∀ r rs, leaseRoom rooms = some (r, rs) →
      r.isBusy = true ∧
      ((∃ r0 ∈ rooms, r0.isBusy = false) →
        ∃ r0 ∈ rooms, r0.isBusy = false ∧ r = setBusy r0) ∧
      ((∀ r0 ∈ rooms, r0.isBusy = true) →
        ∃ r0 ∈ rooms, r = setBusy r0 ∧ ∀ r1 ∈ rooms, r0.lastUsed ≤ r1.lastUsed) := by
  refine ⟨leaseRoom_none_iff rooms, ?_⟩
  intro r rs h
  refine ⟨(leaseRoom_mem_busy rooms r rs h).2, ?_, ?_⟩
  · intro ⟨rf, hrfmem, hrffree⟩
    unfold leaseRoom at h
    cases hf : leaseFree rooms with
    | none =>
      exfalso
      have hall := (leaseFree_none_iff rooms).mp hf
      rw [hall rf hrfmem] at hrffree
      cases hrffree
    | some p =>
      rw [hf] at h
      obtain ⟨x, xs⟩ := p
      obtain ⟨rfl, rfl⟩ := Prod.mk.injEq .. ▸ Option.some.inj h
      obtain ⟨r0, hr0mem, hr0free, hr0eq, _⟩ := leaseFree_some rooms x xs hf
      exact ⟨r0, hr0mem, hr0free, hr0eq⟩
  · intro hall
    unfold leaseRoom at h
    rw [(leaseFree_none_iff rooms).mpr hall] at h
    obtain ⟨r0, hr0mem, hr0eq, _, hr0min⟩ := leaseOldest_some rooms r rs h
    exact ⟨r0, hr0mem, hr0eq, hr0min⟩

/-- Witness for C3 on a two-room pool with one free room: the lease picks the
free room and marks it busy. -/
theorem leaseRoom_spec_witness :
    (setBusy roomFreeB).isBusy = true ∧
    ∃ r0 ∈ poolMixed, r0.isBusy = false ∧ setBusy roomFreeB = setBusy r0 := by
  have h := (leaseRoom_spec poolMixed).2 (setBusy roomFreeB)
    [roomBusyA, setBusy roomFreeB] (by decide)
  exact ⟨h.1, h.2.1 ⟨roomFreeB, by decide, by decide⟩⟩

/-- C4: lock acquisition succeeds iff the user holds no active lock or the
existing lock is older than 5 minutes; on success it atomically sets the lock
with a fresh timestamp; on failure the store is unchanged and the `/start`
handler replies busy without mutating any state.
(deliveryHandler.js 83-106) -/
theorem tryAcquireLock_spec (u : UserDoc) (now : Int) :
    ((tryAcquireLock u now).isSome ↔
      (u.isDelivering = false ∨ u.lastDeliveryAt < now - 5 * 60 * 1000)) ∧
    (∀ u', tryAcquireLock u now = some u' →
      u'.isDelivering = true ∧ u'.lastDeliveryAt = now) ∧
    (tryAcquireLock u now = none → lockStoreAfter u now = u) ∧
    (∀ (env : StartEnv) (oracle : Oracle) (uid : String) (clipIds : List Nat)
        (rooms : List Room), tryAcquireLock u now = none →
      startCommand env oracle uid clipIds now { user := u, rooms := rooms } =
        ({ user := u, rooms := rooms }, DeliveryOutcome.lockBusyReply)) := by
  by_cases hc : u.isDelivering = false ∨ u.lastDeliveryAt < now - 5 * 60 * 1000
  · refine ⟨by simp [tryAcquireLock, hc], ?_, ?_, ?_⟩
    · intro u' hu'
      simp only [tryAcquireLock, if_pos hc] at hu'
      obtain rfl := Option.some.inj hu'
      exact ⟨rfl, rfl⟩
    · intro hnone
      rw [tryAcquireLock, if_pos hc] at hnone
      cases hnone
    · intro env oracle uid clipIds rooms hnone
      rw [tryAcquireLock, if_pos hc] at hnone
      cases hnone
  · refine ⟨by simp [tryAcquireLock, hc], ?_, ?_, ?_⟩
    · intro u' hu'
      simp only [tryAcquireLock, if_neg hc] at hu'
      cases hu'
    · intro _
      unfold lockStoreAfter tryAcquireLock
      rw [if_neg hc]
      rfl
    · intro env oracle uid clipIds rooms _
      unfold startCommand tryAcquireLock
      rw [if_neg hc]

/-- Witness for C4: a stale 5-minutes-old lock is re-acquired with a fresh
timestamp. -/
theorem tryAcquireLock_spec_witness :
    ({ isDelivering := true, lastDeliveryAt := 400000, lastActive := 400000 } : UserDoc).isDelivering = true ∧
    ({ isDelivering := true, lastDeliveryAt := 400000, lastActive := 400000 } : UserDoc).lastDeliveryAt = 400000 :=
  (tryAcquireLock_spec userStale 400000).2.1 _ (by decide)

/-- The `finally` block of `deliverMovie` always clears the per-user lock. -/
theorem deliverMovie_isDelivering_false (oracle : Oracle) (forceSubOk : Bool)
    (uid : String) (clipIds : List Nat) (now : Int) (st : DeliveryState) :
    (deliverMovie oracle forceSubOk uid clipIds now st).1.user.isDelivering = false := rfl

/-- C2: for every `/start` invocation that acquires the per-user delivery
lock, whatever branch is taken and wherever an injected failure occurs in
`deliverMovie` (force-subscribe block, room exhaustion, sanitization,
transfer, invite, bookkeeping), `isDelivering` is `false` when the invocation
concludes.  (deliveryHandler.js 101, 488-490) -/
theorem delivery_lock_released_on_all_paths (env : StartEnv) (oracle : Oracle)
    (uid : String) (clipIds : List Nat) (now : Int) (st : DeliveryState)
    (hacq : (tryAcquireLock st.user now).isSome) :
    (startCommand env oracle uid clipIds now st).1.user.isDelivering = false := by
  unfold startCommand
  cases hs : tryAcquireLock st.user now with
  | none => rw [hs] at hacq; cases hacq
  | some u1 =>
    cases htc : env.tokenClaim with
    | some owner =>
      cases owner <;> simp [clearLock]
    | none =>
      by_cases hp : env.payloadDecodes = false
      · simp [hp, clearLock]
      · simp only [hp, if_false]
        by_cases hm : env.movieOk = false
        · simp [hm, clearLock]
        · simp only [hm, if_false]
          cases hmode : env.mode with
          | token =>
            by_cases ht : env.hasValidToken = false
            · simp [ht, clearLock]
            · simp [ht, deliverMovie_isDelivering_false]
          | shortlink =>
            cases hv : env.isVerified <;> simp [clearLock, deliverMovie_isDelivering_false]
          | off =>
            simp [deliverMovie_isDelivering_false]

/-- Witness for C2: a run whose invite creation throws still ends with the
lock cleared. -/
theorem delivery_lock_released_witness :
    (startCommand envOff oracleInviteFail "42" [7] 1000 stOneFree).1.user.isDelivering = false :=
  delivery_lock_released_on_all_paths envOff oracleInviteFail "42" [7] 1000 stOneFree (by decide)

/-- C1 (amended): once a room is leased, a failure in the pre-transfer edit,
the invite issuance, or the room-state save leaves the pool exactly as at
lease time — the leased room keeps `busy = true` (it is only freed later by
the 6-hour janitor sweep of index.js or an admin override) — while the
per-user lock is still cleared; the room is released with the delivered
references only when those steps all succeed.  Sanitization and media-batch
errors are swallowed by the source and do not divert the path.
(deliveryHandler.js 294-410, 480-490) -/
theorem deliverMovie_error_paths_room_state (oracle : Oracle) (uid : String)
    (clipIds : List Nat) (now : Int) (st : DeliveryState) (room : Room)
    (rooms1 : List Room)
    (hlease : leaseRoom st.rooms = some (room, rooms1)) :
    ((deliverMovie oracle true uid clipIds now st).1.user.isDelivering = false) ∧
    (oracle .editPreTransferMsg = true ∨ oracle .createInvite = true ∨
        oracle .saveRoomDoc = true →
      (deliverMovie oracle true uid clipIds now st).1.rooms = rooms1 ∧
      (deliverMovie oracle true uid clipIds now st).2 = DeliveryOutcome.failed ∧
      ∃ r ∈ rooms1, r.roomId = room.roomId ∧ r.isBusy = true) ∧
    (oracle .editPreTransferMsg = false → oracle .createInvite = false →
        oracle .saveRoomDoc = false →
      (deliverMovie oracle true uid clipIds now st).1.rooms =
        releaseRoomSave rooms1 room.roomId uid
          (if oracle .sendMediaBatch then [] else clipIds) now) := by
  have hmem := leaseRoom_mem_busy st.rooms room rooms1 hlease
  refine ⟨deliverMovie_isDelivering_false .., ?_, ?_⟩
  · intro hfail
    unfold deliverMovie deliverMovieBody
    rw [hlease]
    simp only
    rcases hpt : oracle .editPreTransferMsg with _ | _
    · rcases hci : oracle .createInvite with _ | _
      · rcases hsr : oracle .saveRoomDoc with _ | _
        · rw [hpt, hci, hsr] at hfail
          rcases hfail with h | h | h <;> cases h
        · simp only [hpt, hci, hsr, Bool.false_eq_true, if_false, if_true]
          exact ⟨rfl, rfl, room, hmem.1, rfl, hmem.2⟩
      · simp only [hpt, hci, Bool.false_eq_true, if_false, if_true]
        exact ⟨rfl, rfl, room, hmem.1, rfl, hmem.2⟩
    · simp only [hpt, if_true]
      exact ⟨rfl, rfl, room, hmem.1, rfl, hmem.2⟩
  · intro hpt hci hsr
    unfold deliverMovie deliverMovieBody
    rw [hlease]
    simp only [hpt, hci, hsr, Bool.false_eq_true, if_false]
    rcases hsm : oracle .sendMediaBatch with _ | _ <;>
      rcases hdc : oracle .editDeliveryCard with _ | _ <;>
        simp [hsm, hdc]

/-- Witness for C1 (amended) on a one-free-room pool with a failing invite
creation. -/
theorem deliverMovie_error_paths_room_state_witness :
    (deliverMovie oracleInviteFail true "42" [7] 1000 stOneFree).1.user.isDelivering = false ∧
    ((deliverMovie oracleInviteFail true "42" [7] 1000 stOneFree).1.rooms = [setBusy (poolOneFree.headD roomBusyA)] ∧
      (deliverMovie oracleInviteFail true "42" [7] 1000 stOneFree).2 = DeliveryOutcome.failed ∧
      ∃ r ∈ [setBusy (poolOneFree.headD roomBusyA)], r.roomId = (setBusy (poolOneFree.headD roomBusyA)).roomId ∧ r.isBusy = true) := by
  have h := deliverMovie_error_paths_room_state oracleInviteFail "42" [7] 1000 stOneFree
    (setBusy (poolOneFree.headD roomBusyA)) [setBusy (poolOneFree.headD roomBusyA)] (by decide)
  exact ⟨h.1, h.2.1 (Or.inr (Or.inl (by decide)))⟩

/-- C1 counterexample: with one leased room and an invite-creation failure,
the delivery attempt concludes as failed with the room still `busy = true` —
the error path does not release the room, refuting the claim that no error
path leaves a room busy.  (deliveryHandler.js 480-490 release only the lock) -/
theorem deliverMovie_invite_failure_room_stays_busy :
    (deliverMovie oracleInviteFail true "42" [7] 1000 stOneFree).2 = DeliveryOutcome.failed ∧
    (deliverMovie oracleInviteFail true "42" [7] 1000 stOneFree).1.rooms =
      [{ roomId := "room1", isBusy := true, lastUsed := 0,
         currentUserId := none, lastMessageIds := [] }] ∧
    (deliverMovie oracleInviteFail true "42" [7] 1000 stOneFree).1.user.isDelivering = false := by
  decide

/-! ### Match engine (claims C5-C8) -/

/-- With pairwise-distinct titles, `Movie.findOne({title: query})` returns
exactly the entry whose title equals the query. -/
theorem find_title_eq : ∀ (movies : List Movie) (query : String) (m : Movie),
    m ∈ movies → m.title = query → (movies.map Movie.title).Nodup →
    movies.find? (fun x => x.title == query) = some m
  | [], _, m, hm, _, _ => by cases hm
  | h :: t, query, m, hm, ht, hnd => by
    rw [List.map_cons, List.nodup_cons] at hnd
    by_cases hh : h.title = query
    · rw [List.find?_cons_of_pos _ (by simp [hh])]
      rcases List.mem_cons.mp hm with rfl | hmt
      · rfl
      · exfalso
        have : m.title ∈ List.map Movie.title t := List.mem_map_of_mem Movie.title hmt
        rw [ht, ← hh] at this
        exact hnd.1 this
    · rw [List.find?_cons_of_neg _ (by simp [hh])]
      rcases List.mem_cons.mp hm with rfl | hmt
      · exact absurd ht hh
      · exact find_title_eq t query m hmt ht hnd.2

/-- C5: for every catalog containing an entry whose normalized title equals
the normalized query (titles are unique keys), resolution returns a single
match on exactly that entry; the fuzzy stages are never consulted.
(searchHandler.js 326) -/
theorem exact_title_match_precedence (movies : List Movie) (query : String)
    (m : Movie) (hm : m ∈ movies) (ht : m.title = query)
    (hnd : (movies.map Movie.title).Nodup) :
    resolveQuery movies query = Outcome.singleMatch m := by
  unfold resolveQuery
  rw [find_title_eq movies query m hm ht hnd]

/-- Witness for C5 on a two-entry catalog. -/
theorem exact_title_match_precedence_witness :
    resolveQuery [movieJawan, movieLuca] "jawan" = Outcome.singleMatch movieJawan :=
  exact_title_match_precedence [movieJawan, movieLuca] "jawan" movieJawan
    (by decide) (by decide) (by decide)

/-- C6 (amended): whenever the scored fuzzy cascade produces one or more
candidates (the exact, spaceless and token stages having found none), the top
min(n, 3) candidates are presented as suggestions for explicit user
confirmation — also when exactly one candidate survives; no auto-accept
happens at the fuzzy stage.  (searchHandler.js 346-376) -/
theorem fuzzy_candidates_presented_as_suggestions (movies : List Movie) (query : String)
    (h1 : movies.find? (fun m => m.title == query) = none)
    (h2 : movies.find? (fun m => matchesSpaceless query m.title) = none)
    (h3 : movies.find? (fun m => matchesTokens query m.title) = none)
    (h4 : findSimilarByTypo movies query 2 ≠ []) :
    resolveQuery movies query =
      Outcome.suggestions (((findSimilarByTypo movies query 2).take 3).map (fun x => x.1)) := by
  unfold resolveQuery
  rw [h1, h2, h3]
  simp only [List.length_pos_iff_ne_nil]
  rw [if_pos h4]

/-- Witness for C6 (amended) on a single-candidate catalog. -/
theorem fuzzy_candidates_presented_as_suggestions_witness :
    resolveQuery [movieLuca] "leo" =
      Outcome.suggestions (((findSimilarByTypo [movieLuca] "leo" 2).take 3).map (fun x => x.1)) :=
  fuzzy_candidates_presented_as_suggestions [movieLuca] "leo"
    (by decide) (by decide) (by decide) (by decide)

/-- C6 counterexample: for the catalog ["luca"] and the query "leo" the fuzzy
cascade yields exactly one candidate, yet resolution returns a suggestion
requiring confirmation, not the auto-accepted single match the claim
states.  -/
theorem single_fuzzy_candidate_not_auto_accepted :
    (findSimilarByTypo [movieLuca] "leo" 2).length = 1 ∧
    resolveQuery [movieLuca] "leo" = Outcome.suggestions [movieLuca] ∧
    resolveQuery [movieLuca] "leo" ≠ Outcome.singleMatch movieLuca := by
  decide

/-- C7 (amended): when the earlier stages do not fire, the phonetic stage
scores an entry as a match (score 1) exactly when the full four-character
phonetic codes are equal OR the first characters of the two codes are equal —
first-character equality alone suffices in the wired handler.
(searchHandler.js 145-148) -/
theorem soundex_stage_accept_condition (query : String) (m : Movie)
    (h1 : containsSub (toLowerL m.title.data) (toLowerL query.data) = false)
    (h2 : matchesSpaceless query m.title = false)
    (h3 : matchesTokens query m.title = false)
    (h4 : m.categories.any (fun c => containsSub (toLowerL c.data) (toLowerL query.data)) = false) :
    (movieFuzzyScore query 2 m = some (1, MatchReason.soundex) ↔
      (soundex (toLowerL query.data) = soundex (toLowerL m.title.data) ∨
       (soundex (toLowerL query.data)).head? = (soundex (toLowerL m.title.data)).head?)) := by
  unfold movieFuzzyScore
  simp only [h1, h2, h3, h4, Bool.false_eq_true, if_false]
  by_cases hs : soundex (toLowerL query.data) = soundex (toLowerL m.title.data) ∨
      (soundex (toLowerL query.data)).head? = (soundex (toLowerL m.title.data)).head?
  · simp [hs]
  · rw [if_neg hs]
    simp only [hs, iff_false]
    by_cases hd : levenshteinDistance (toLowerL query.data) (toLowerL m.title.data) ≤ 2
    · simp [hd]
    · rw [if_neg hd]
      by_cases hk : keyboardProximity (toLowerL query.data) (toLowerL m.title.data) ≤ 3
      · simp [hk]
      · simp [hk]

/-- Witness for C7 (amended) at query "leo" against "luca". -/
theorem soundex_stage_accept_condition_witness :
    movieFuzzyScore "leo" 2 movieLuca = some (1, MatchReason.soundex) ↔
      (soundex (toLowerL "leo".data) = soundex (toLowerL movieLuca.title.data) ∨
       (soundex (toLowerL "leo".data)).head? = (soundex (toLowerL movieLuca.title.data)).head?) :=
  soundex_stage_accept_condition "leo" movieLuca (by decide) (by decide) (by decide) (by decide)

/-- C7 counterexample: "leo" (code L000) and "luca" (code L200) have
different full phonetic codes, yet the stage scores the entry as a phonetic
match, refuting the claim that full four-character equality is required. -/
theorem soundex_first_char_only_scores_match :
    movieFuzzyScore "leo" 2 movieLuca = some (1, MatchReason.soundex) ∧
    soundex (toLowerL "leo".data) ≠ soundex (toLowerL movieLuca.title.data) := by
  decide

/-- C8 (amended): when the earlier stages do not fire, the edit-distance
stage accepts an entry exactly when the full Levenshtein distance is at most
the constant threshold 2 (the function's default parameter, passed by every
call site regardless of query length), with score distance + 2.
(searchHandler.js 112, 152-156, 348, 558) -/
theorem levenshtein_stage_accept_condition (query : String) (m : Movie)
    (h1 : containsSub (toLowerL m.title.data) (toLowerL query.data) = false)
    (h2 : matchesSpaceless query m.title = false)
    (h3 : matchesTokens query m.title = false)
    (h4 : m.categories.any (fun c => containsSub (toLowerL c.data) (toLowerL query.data)) = false)
    (h5 : ¬(soundex (toLowerL query.data) = soundex (toLowerL m.title.data) ∨
            (soundex (toLowerL query.data)).head? = (soundex (toLowerL m.title.data)).head?)) :
    (movieFuzzyScore query 2 m =
       some (((levenshteinDistance (toLowerL query.data) (toLowerL m.title.data) + 2 : Nat) : ℚ),
             MatchReason.levenshtein) ↔
      levenshteinDistance (toLowerL query.data) (toLowerL m.title.data) ≤ 2) := by
  unfold movieFuzzyScore
  simp only [h1, h2, h3, h4, Bool.false_eq_true, if_false]
  rw [if_neg h5]
  by_cases hd : levenshteinDistance (toLowerL query.data) (toLowerL m.title.data) ≤ 2
  · simp [hd]
  · rw [if_neg hd]
    simp only [hd, iff_false]
    by_cases hk : keyboardProximity (toLowerL query.data) (toLowerL m.title.data) ≤ 3
    · simp [hk]
    · simp [hk]

/-- Witness for C8 (amended) at query "abcd" against "xycd". -/
theorem levenshtein_stage_accept_condition_witness :
    movieFuzzyScore "abcd" 2 movieXycd =
       some (((levenshteinDistance (toLowerL "abcd".data) (toLowerL movieXycd.title.data) + 2 : Nat) : ℚ),
             MatchReason.levenshtein) ↔
      levenshteinDistance (toLowerL "abcd".data) (toLowerL movieXycd.title.data) ≤ 2 :=
  levenshtein_stage_accept_condition "abcd" movieXycd
    (by decide) (by decide) (by decide) (by decide) (by decide)

/-- C8 counterexample: the query "abcd" has length 4 < 5, so the claimed
length-dependent threshold would be 1, yet the entry "xycd" at distance 2 is
accepted (score 4) and surfaced — the wired handler always uses threshold 2. -/
theorem levenshtein_constant_threshold_counterexample :
    levenshteinDistance (toLowerL "abcd".data) (toLowerL movieXycd.title.data) = 2 ∧
    "abcd".length < 5 ∧
    movieFuzzyScore "abcd" 2 movieXycd = some (4, MatchReason.levenshtein) ∧
    resolveQuery [movieXycd] "abcd" = Outcome.suggestions [movieXycd] := by
  decide

/-- C9 (amended): each successful single-resolution delivery increments the
entry's `requests` counter by exactly 1 via `movie.requests += 1` followed by
`movie.save()` — a read-then-write sequence, not an atomic store increment.
Sequential resolutions each add exactly 1 (and the counter never decreases),
but two interleaved resolutions can lose an update and add only 1 in total.
(searchHandler.js 380-381) -/
theorem requests_increment_spec (m : Movie) (n : Nat) :
    (incrementRequests m).requests = m.requests + 1 ∧
    m.requests ≤ (incrementRequests m).requests ∧
    runSched [0, 0, 1, 1] (n, [RmwPc.toRead, RmwPc.toRead]) =
      (n + 2, [RmwPc.done, RmwPc.done]) ∧
    runSched [0, 1, 0, 1] (0, [RmwPc.toRead, RmwPc.toRead]) =
      (1, [RmwPc.done, RmwPc.done]) :=
  ⟨rfl, Nat.le_succ _, rfl, rfl⟩

/-- C9 counterexample: interleaving two read-then-write increments (both
read before either writes) leaves the stored counter at 1 after two
successful resolutions, not 2 — the increment is not atomic and is incorrect
under concurrent resolutions of the same title. -/
theorem requests_increment_lost_update :
    runSched [0, 1, 0, 1] (0, [RmwPc.toRead, RmwPc.toRead]) =
      (1, [RmwPc.done, RmwPc.done]) ∧
    (1 : Nat) ≠ 2 := by
  decide
